import Mathlib

/-!
Verification of the message-triage backend (src/main.py, src/schemas.py).

The development shallowly embeds the three logic-bearing components:
* the keyword classifier `score_urgency` (main.py lines 46-71),
* the per-customer conversation aggregation `conversations` (main.py lines 324-356),
  including a model of the MongoDB pipeline stages it delegates to,
* the websocket fan-out `ConnectionManager.broadcast` (main.py lines 109-127),
and the message-creation enrichment `create_message` (main.py lines 197-215).

Python strings become Lean `String`; Python `needle in haystack` becomes the
contiguous-substring test `containsSub`; Python `str.lower` becomes `lowerS`
(ASCII case folding, which coincides with Python on the ASCII texts the
keyword table and all tests use).
-/

namespace Backend

/-- Does the needle occur at the very start of the haystack?  Helper for the
contiguous-substring test. -/
def prefixMatch : List Char → List Char → Bool
  | [], _ => true
  | _ :: _, [] => false
  | a :: ns, b :: hs => a == b && prefixMatch ns hs

/-- Contiguous-substring occurrence, the semantics of Python `needle in haystack`
for strings (the empty needle occurs in every string). -/
def containsSub : List Char → List Char → Bool
  | ns, [] => ns.isEmpty
  | ns, b :: t => prefixMatch ns (b :: t) || containsSub ns t

/-- Model of Python `str.lower` (ASCII case folding, character by character). -/
def lowerS (s : String) : String := String.mk (s.data.map Char.toLower)

/-- Python `needle in haystack` on strings. -/
def strIn (needle hay : String) : Bool := containsSub needle.data hay.data

/-- Case-insensitive substring containment: both sides lowered, then `strIn`. -/
def substrI (needle hay : String) : Bool := strIn (lowerS needle) (lowerS hay)

/-- The ordered topic-bucket keyword table URGENT_KEYWORDS of main.py lines 46-51.
Python 3.7+ dicts iterate in insertion order, so the bucket order below is the
iteration order of the source dict. -/
def URGENT_KEYWORDS : List (String × List String) :=
  [("loan", ["loan", "disburse", "disbursal", "approval", "approved", "when will i get", "payout"]),
   ("account", ["account", "update", "profile", "change", "password"]),
   ("kyc", ["kyc", "verify", "verification", "id", "identity"]),
   ("payment", ["payment", "repay", "repayment", "due", "overdue"])]

/-- EXTRA_URGENT of main.py line 53. -/
def EXTRA_URGENT : List String := ["urgent", "asap", "immediately", "now", "help"]

/-- One iteration of the `for tp, kws in URGENT_KEYWORDS.items()` loop of
score_urgency (main.py lines 61-65): count the bucket keywords occurring in the
lowered text, add `30 + 10 * (hits - 1)` when positive, and keep the first
assigned topic (`topic = tp if topic is None else topic`). -/
def bucketStep (t : String) (acc : Nat × Option String) (b : String × List String) :
    Nat × Option String :=
  if (b.2.filter (fun kw => strIn kw t)).length ≠ 0 then
    (acc.1 + (30 + 10 * ((b.2.filter (fun kw => strIn kw t)).length - 1)),
     match acc.2 with
     | none => some b.1
     | some x => some x)
  else acc

/-- score_urgency of main.py lines 56-71, the classifier `classify` of the spec:
lower the text, fold the keyword buckets, add 20 for an extra-urgency word,
add 20 for the "when" heuristic, clamp at 100.  The subtraction `hits - 1`
happens only under the guard `hits ≠ 0`, where Nat and Python subtraction
agree. -/
def score_urgency (text : String) : Nat × Option String :=
  let t := lowerS text
  let r := URGENT_KEYWORDS.foldl (bucketStep t) (0, none)
  let s1 := if EXTRA_URGENT.any (fun w => strIn w t) then r.1 + 20 else r.1
  let s2 := if strIn "when" t && (strIn "loan" t || strIn "disbur" t || strIn "approved" t)
            then s1 + 20 else s1
  (min s2 100, r.2)

/-- Spec-side contribution of one keyword bucket, following the words of the
claim: if the count of the bucket keywords occurring as substrings of the
lowered text is positive, the bucket contributes `30 + 10 * (count - 1)`,
otherwise nothing. -/
def bucketContribution (t : String) (kws : List String) : Nat :=
  if 0 < (kws.filter (fun kw => strIn kw t)).length
  then 30 + 10 * ((kws.filter (fun kw => strIn kw t)).length - 1) else 0

/-- Spec-side urgency, following the words of claim C1: sum of bucket
contributions over the fixed bucket order, plus 20 for an extra-urgency word,
plus 20 for the "when" bonus, clamped at 100. -/
def urgencySpec (text : String) : Nat :=
  let t := lowerS text
  let base := (URGENT_KEYWORDS.map (fun b => bucketContribution t b.2)).sum
  let extra := if EXTRA_URGENT.any (fun w => strIn w t) then 20 else 0
  let whenBonus := if strIn "when" t && (strIn "loan" t || strIn "disbur" t || strIn "approved" t)
                   then 20 else 0
  min (base + extra + whenBonus) 100

/-- Spec-side topic, following the words of claim C3: the label of the first
bucket, in the fixed order, having at least one keyword hit; `none` when no
bucket has a hit. -/
def topicSpec (text : String) : Option String :=
  (URGENT_KEYWORDS.find? (fun b => b.2.any (fun kw => strIn kw (lowerS text)))).map Prod.fst

/-- A bucket's filtered-keyword count is nonzero exactly when some keyword of
the bucket occurs in the text. -/
lemma filter_length_ne_zero_iff_any (p : String → Bool) (l : List String) :
    ((l.filter p).length ≠ 0) ↔ l.any p = true := by
  induction l with
  | nil => simp
  | cons a t ih =>
    by_cases h : p a
    · simp [List.filter_cons, h]
    · simp [List.filter_cons, h, ih]

/-- The score component of one bucket step adds exactly the bucket's
contribution. -/
lemma bucketStep_fst (t : String) (a : Nat × Option String) (b : String × List String) :
    (bucketStep t a b).1 = a.1 + bucketContribution t b.2 := by
  unfold bucketStep bucketContribution
  by_cases h : ((b.2.filter (fun kw => strIn kw t)).length ≠ 0)
  · rw [if_pos h, if_pos (Nat.pos_iff_ne_zero.mpr h)]
  · rw [if_neg h, if_neg (by omega : ¬ 0 < (b.2.filter (fun kw => strIn kw t)).length)]
    omega

/-- Score component of the bucket fold: the fold adds exactly the sum of the
bucket contributions to the initial score. -/
lemma bucketFold_fst (t : String) :
    ∀ (bs : List (String × List String)) (a : Nat × Option String),
      (bs.foldl (bucketStep t) a).1 = a.1 + (bs.map (fun b => bucketContribution t b.2)).sum := by
  intro bs
  induction bs with
  | nil => intro a; simp
  | cons b rest ih =>
    intro a
    rw [List.foldl_cons, ih, bucketStep_fst, List.map_cons, List.sum_cons]
    omega

/-- Topic component of the bucket fold: an already-assigned topic is kept; from
`none` the fold assigns the label of the first bucket with a keyword hit. -/
lemma bucketFold_snd (t : String) :
    ∀ (bs : List (String × List String)) (a : Nat × Option String),
      (bs.foldl (bucketStep t) a).2 =
        match a.2 with
        | some x => some x
        | none => (bs.find? (fun b => b.2.any (fun kw => strIn kw t))).map Prod.fst := by
  intro bs
  induction bs with
  | nil =>
    intro a
    cases ha : a.2 <;> simp [ha]
  | cons b rest ih =>
    intro a
    rw [List.foldl_cons]
    by_cases hany : b.2.any (fun kw => strIn kw t) = true
    · have h : ((b.2.filter (fun kw => strIn kw t)).length ≠ 0) :=
        (filter_length_ne_zero_iff_any _ _).mpr hany
      have hstep : bucketStep t a b =
          (a.1 + (30 + 10 * ((b.2.filter (fun kw => strIn kw t)).length - 1)),
           match a.2 with
           | none => some b.1
           | some x => some x) := by
        unfold bucketStep
        simp [h]
      rw [hstep, ih]
      cases ha : a.2 <;> simp [ha, List.find?, hany]
    · have hanyf : b.2.any (fun kw => strIn kw t) = false := by
        simpa using hany
      have h : ¬((b.2.filter (fun kw => strIn kw t)).length ≠ 0) :=
        fun hc => hany ((filter_length_ne_zero_iff_any _ _).mp hc)
      have hstep : bucketStep t a b = a := by
        unfold bucketStep
        simp [h]
      rw [hstep, ih]
      cases ha : a.2 <;> simp [ha, List.find?, hanyf]

/-- C1: for every input text, classify returns an urgency equal to the clamp at
100 of the sum of the bucket contributions (30 + 10 * (count - 1) for each
bucket whose keyword count in the lowered text is positive, in the fixed order
loan, account, kyc, payment), plus 20 for an extra-urgency word, plus 20 for
the "when"-plus-loan/disbur/approved bonus, the latter stacking with the loan
bucket. -/
theorem score_urgency_eq_spec (text : String) :
    (score_urgency text).1 = urgencySpec text := by
  simp only [score_urgency, urgencySpec]
  rw [bucketFold_fst]
  split_ifs <;> omega

/-- C2 counterexample: on the exact input "loan loan loan" the classifier does
NOT return urgency 50 — the repeated keyword "loan" is one keyword hit, counted
once, not once per occurrence. -/
theorem score_loan3_ne_fifty : score_urgency "loan loan loan" ≠ (50, some "loan") := by
  decide

/-- C2 amended: classify "loan loan loan" returns topic loan with urgency 30:
the bucket count counts keywords of the bucket that occur in the text, each at
most once, so the three occurrences of "loan" give a single hit and the score
is 30 + 10 * (1 - 1) = 30, not 50. -/
theorem score_loan3_eq_thirty : score_urgency "loan loan loan" = (30, some "loan") := by
  decide

/-- C3: for every input text, the topic returned by classify is the label of the
first bucket, in the fixed order loan, account, kyc, payment, that has at least
one keyword hit (`List.find?` semantics), and is `none` when no bucket has a
hit; a later bucket with more hits never overrides an earlier bucket's label. -/
theorem topic_first_bucket (text : String) :
    (score_urgency text).2 = topicSpec text := by
  unfold score_urgency topicSpec
  rw [bucketFold_snd]

/-- C4: for every input text, the urgency returned by classify lies in [0, 100]:
the total is clamped above at 100, and every contribution is a non-negative
natural number so no lower clamp is needed. -/
theorem urgency_bounds (text : String) :
    0 ≤ (score_urgency text).1 ∧ (score_urgency text).1 ≤ 100 := by
  refine ⟨Nat.zero_le _, ?_⟩
  simp only [score_urgency]
  exact min_le_right _ _

/-- A stored message record (schemas.py `Message` plus the storage-assigned
creation sequence).  `order` models `created_order`: the storage-assigned,
strictly increasing sequence derived from the MongoDB `_id`; the natural scan
order of the collection is ascending in it. -/
structure Message where
  order : Nat
  customer_id : String
  text : String
  channel : String
  direction : String
  status : String
  urgency_score : Nat
  topic : Option String
deriving DecidableEq

/-- A stored customer record (schemas.py `Customer`), reduced to the fields the
conversations endpoint reads: its identifier (for the join) and its payload. -/
structure Customer where
  id : String
  name : String
deriving DecidableEq

/-- The request body of POST /api/messages (main.py `CreateMessage`). -/
structure CreateMessage where
  customer_id : String
  text : String
  channel : String
  direction : String
deriving DecidableEq

/-- create_message of main.py lines 197-215: urgency and topic are computed by
score_urgency for inbound payloads only; any other direction string stores
urgency 0 and no topic; status is "open" exactly for inbound payloads and
"sent" otherwise.  `order` is the storage-assigned creation sequence of the new
document. -/
def create_message (payload : CreateMessage) (order : Nat) : Message :=
  let ut : Nat × Option String :=
    if payload.direction = "inbound" then score_urgency payload.text else (0, none)
  { order := order
    customer_id := payload.customer_id
    text := payload.text
    channel := payload.channel
    direction := payload.direction
    status := if payload.direction = "inbound" then "open" else "sent"
    urgency_score := ut.1
    topic := ut.2 }

/-- C10: a payload whose direction is any string other than "inbound" (the
direction value is never validated) is stored unclassified with urgency 0, no
topic and status "sent"; a payload with direction exactly "inbound" is stored
with the classifier's urgency and topic and status "open". -/
theorem create_message_direction (payload : CreateMessage) (order : Nat) :
    (payload.direction ≠ "inbound" →
      (create_message payload order).urgency_score = 0 ∧
      (create_message payload order).topic = none ∧
      (create_message payload order).status = "sent") ∧
    (payload.direction = "inbound" →
      (create_message payload order).urgency_score = (score_urgency payload.text).1 ∧
      (create_message payload order).topic = (score_urgency payload.text).2 ∧
      (create_message payload order).status = "open") := by
  constructor
  · intro h
    simp [create_message, h]
  · intro h
    simp [create_message, h]

/-- Witness for C10 at concrete payloads: direction "whatsapp" (neither
"inbound" nor "outbound") stores (0, none, "sent"); direction "inbound"
stores the classifier result and "open". -/
theorem create_message_direction_witness :
    ((create_message ⟨"c1", "urgent loan", "web", "whatsapp"⟩ 7).urgency_score = 0 ∧
     (create_message ⟨"c1", "urgent loan", "web", "whatsapp"⟩ 7).topic = none ∧
     (create_message ⟨"c1", "urgent loan", "web", "whatsapp"⟩ 7).status = "sent") ∧
    ((create_message ⟨"c1", "urgent loan", "web", "inbound"⟩ 8).urgency_score =
        (score_urgency "urgent loan").1 ∧
     (create_message ⟨"c1", "urgent loan", "web", "inbound"⟩ 8).topic =
        (score_urgency "urgent loan").2 ∧
     (create_message ⟨"c1", "urgent loan", "web", "inbound"⟩ 8).status = "open") :=
  ⟨(create_message_direction ⟨"c1", "urgent loan", "web", "whatsapp"⟩ 7).1 (by decide),
   (create_message_direction ⟨"c1", "urgent loan", "web", "inbound"⟩ 8).2 rfl⟩

/-- The envelope broadcast for every newly created message (main.py line 122):
`{"type": "message_created", "data": message}`. -/
structure Envelope where
  type : String
  data : Message
deriving DecidableEq

/-- ConnectionManager.disconnect (main.py lines 117-119): remove the first
occurrence of the observer from the registry, a no-op when absent — exactly
the semantics of Python `list.remove` guarded by the membership test. -/
def disconnect (active : List Nat) (ws : Nat) : List Nat := active.erase ws

/-- The `for ws in list(self.active)` loop of ConnectionManager.broadcast
(main.py lines 123-127).  The first list is the snapshot being iterated, the
second the live registry.  A failing send (`fails ws = true`, the `except`
arm) disconnects the observer; a succeeding send appends one delivery of the
payload to that observer.  Returns the final registry and the deliveries in
send order. -/
def broadcastLoop (fails : Nat → Bool) (payload : Envelope) :
    List Nat → List Nat → List Nat × List (Nat × Envelope)
  | [], act => (act, [])
  | ws :: rest, act =>
    if fails ws then broadcastLoop fails payload rest (disconnect act ws)
    else
      let r := broadcastLoop fails payload rest act
      (r.1, (ws, payload) :: r.2)

/-- ConnectionManager.broadcast (main.py lines 121-127): wrap the message in
the "message_created" envelope and iterate over a snapshot of the registry. -/
def broadcast (fails : Nat → Bool) (msg : Message) (active : List Nat) :
    List Nat × List (Nat × Envelope) :=
  broadcastLoop fails ⟨"message_created", msg⟩ active active

/-- The deliveries of a broadcast are exactly one envelope per non-failing
observer of the iterated snapshot, in iteration order; they do not depend on
the registry argument. -/
lemma broadcastLoop_deliveries (fails : Nat → Bool) (payload : Envelope) :
    ∀ (iter act : List Nat),
      (broadcastLoop fails payload iter act).2 =
        (iter.filter (fun w => !(fails w))).map (fun w => (w, payload)) := by
  intro iter
  induction iter with
  | nil => intro act; simp [broadcastLoop]
  | cons ws rest ih =>
    intro act
    by_cases h : fails ws
    · simp [broadcastLoop, h, ih]
    · simp [broadcastLoop, h, ih]

/-- The final registry of the loop is a subset of the registry it started
from: the loop only ever erases. -/
lemma broadcastLoop_subset (fails : Nat → Bool) (payload : Envelope) :
    ∀ (iter act : List Nat), (broadcastLoop fails payload iter act).1 ⊆ act := by
  intro iter
  induction iter with
  | nil => intro act; simp [broadcastLoop]
  | cons ws rest ih =>
    intro act
    by_cases h : fails ws
    · simp only [broadcastLoop, h, if_true]
      exact (ih _).trans (List.erase_subset ws act)
    · simpa [broadcastLoop, h] using ih act

/-- An observer absent from the registry stays absent. -/
lemma broadcastLoop_not_mem (fails : Nat → Bool) (payload : Envelope)
    (ws : Nat) : ∀ (iter act : List Nat), ws ∉ act →
      ws ∉ (broadcastLoop fails payload iter act).1 :=
  fun iter act h hmem => h (broadcastLoop_subset fails payload iter act hmem)

/-- A failing observer of the iterated snapshot is gone from the final
registry, provided the registry has no duplicate handles. -/
lemma broadcastLoop_fail_removed (fails : Nat → Bool) (payload : Envelope)
    (ws : Nat) : ∀ (iter act : List Nat), act.Nodup → ws ∈ iter →
      fails ws = true → ws ∉ (broadcastLoop fails payload iter act).1 := by
  intro iter
  induction iter with
  | nil => intro act _ h; cases h
  | cons x rest ih =>
    intro act hnd hmem hf
    rcases List.mem_cons.mp hmem with rfl | hmem
    · simp only [broadcastLoop, hf, if_true]
      exact broadcastLoop_not_mem fails payload ws rest _
        (fun hc => ((List.Nodup.mem_erase_iff hnd).mp hc).1 rfl)
    · by_cases hx : fails x
      · simp only [broadcastLoop, hx, if_true]
        exact ih _ (List.Nodup.erase x hnd) hmem hf
      · simpa [broadcastLoop, hx] using ih act hnd hmem hf

/-- A non-failing observer of the registry survives the loop. -/
lemma broadcastLoop_ok_kept (fails : Nat → Bool) (payload : Envelope)
    (ws : Nat) (hf : fails ws = false) :
    ∀ (iter act : List Nat), ws ∈ act → ws ∈ (broadcastLoop fails payload iter act).1 := by
  intro iter
  induction iter with
  | nil => intro act h; simpa [broadcastLoop] using h
  | cons x rest ih =>
    intro act hmem
    by_cases hx : fails x
    · have hne : ws ≠ x := fun hcontra => by rw [hcontra] at hf; rw [hf] at hx; cases hx
      simp only [broadcastLoop, hx, if_true]
      exact ih _ ((List.mem_erase_of_ne hne).mpr hmem)
    · simpa [broadcastLoop, hx] using ih act hmem

/-- In a duplicate-free list, keying each element against a fixed target picks
out exactly the one matching pair. -/
lemma filter_map_pair_eq_single (payload : Envelope) (ws : Nat) :
    ∀ (l : List Nat), l.Nodup → ws ∈ l →
      ((l.map (fun w => (w, payload))).filter (fun d => d.1 == ws)) = [(ws, payload)] := by
  intro l
  induction l with
  | nil => intro _ h; cases h
  | cons x rest ih =>
    intro hnd hmem
    rcases List.mem_cons.mp hmem with rfl | hmem
    · have hnot : ws ∉ rest := (List.nodup_cons.mp hnd).1
      have hrest : ((rest.map (fun w => (w, payload))).filter (fun d => d.1 == ws)) = [] := by
        rw [List.filter_eq_nil_iff]
        intro d hd
        rcases List.mem_map.mp hd with ⟨w, hw, rfl⟩
        have hne : w ≠ ws := fun hcontra => hnot (hcontra ▸ hw)
        simp [hne]
      simp [List.filter_cons, hrest]
    · have hne : x ≠ ws := fun hcontra => (List.nodup_cons.mp hnd).1 (hcontra ▸ hmem)
      have := ih (List.nodup_cons.mp hnd).2 hmem
      simp [List.filter_cons, hne, this]

/-- Keying against a target absent from the list yields nothing. -/
lemma filter_map_pair_eq_nil (payload : Envelope) (ws : Nat) :
    ∀ (l : List Nat), ws ∉ l →
      ((l.map (fun w => (w, payload))).filter (fun d => d.1 == ws)) = [] := by
  intro l hmem
  rw [List.filter_eq_nil_iff]
  intro d hd
  rcases List.mem_map.mp hd with ⟨w, hw, rfl⟩
  have hne : w ≠ ws := fun hcontra => hmem (hcontra ▸ hw)
  simp [hne]

/-- C8: over a duplicate-free registry, every observer whose send succeeds
receives exactly one envelope with type "message_created" and data the full
enriched record; a failure at one observer does not prevent any other delivery
(every non-failing observer is still delivered to and kept), and causes exactly
that observer to be removed — it receives nothing in this broadcast's remainder
and nothing in any subsequent broadcast over the resulting registry. -/
theorem broadcast_deliveries (fails : Nat → Bool) (msg : Message)
    (active : List Nat) (hnd : active.Nodup) :
    (∀ ws ∈ active, fails ws = false →
      ((broadcast fails msg active).2.filter (fun d => d.1 == ws)) =
        [(ws, ⟨"message_created", msg⟩)]) ∧
    (∀ ws ∈ active, fails ws = true →
      ws ∉ (broadcast fails msg active).1 ∧
      ((broadcast fails msg active).2.filter (fun d => d.1 == ws)) = [] ∧
      (∀ (fails2 : Nat → Bool) (msg2 : Message),
        ((broadcast fails2 msg2 (broadcast fails msg active).1).2.filter
          (fun d => d.1 == ws)) = [])) ∧
    (∀ ws ∈ active, fails ws = false → ws ∈ (broadcast fails msg active).1) ∧
    (∀ ws ∈ (broadcast fails msg active).1, ws ∈ active) := by
  refine ⟨?_, ?_, ?_, ?_⟩
  · intro ws hmem hf
    rw [broadcast, broadcastLoop_deliveries]
    exact filter_map_pair_eq_single _ ws _ (List.Nodup.filter _ hnd)
      (List.mem_filter.mpr ⟨hmem, by simp [hf]⟩)
  · intro ws hmem hf
    have hgone : ws ∉ (broadcast fails msg active).1 :=
      broadcastLoop_fail_removed fails _ ws active active hnd hmem hf
    refine ⟨hgone, ?_, ?_⟩
    · rw [broadcast, broadcastLoop_deliveries]
      refine filter_map_pair_eq_nil _ ws _ (fun hc => ?_)
      exact absurd ((List.mem_filter.mp hc).2) (by simp [hf])
    · intro fails2 msg2
      rw [broadcast, broadcastLoop_deliveries]
      refine filter_map_pair_eq_nil _ ws _ (fun hc => hgone ?_)
      exact List.mem_of_mem_filter hc
  · intro ws hmem hf
    exact broadcastLoop_ok_kept fails _ ws hf active active hmem
  · intro ws hmem
    exact broadcastLoop_subset fails _ active active hmem

/-- Witness for C8: three observers 1, 2, 3 where observer 2's send fails. -/
theorem broadcast_deliveries_witness :
    (∀ ws ∈ [1, 2, 3], (fun w => w == 2) ws = false →
      ((broadcast (fun w => w == 2)
          (create_message ⟨"c1", "hi", "web", "inbound"⟩ 1) [1, 2, 3]).2.filter
        (fun d => d.1 == ws)) =
        [(ws, ⟨"message_created", create_message ⟨"c1", "hi", "web", "inbound"⟩ 1⟩)]) ∧
    (∀ ws ∈ [1, 2, 3], (fun w => w == 2) ws = true →
      ws ∉ (broadcast (fun w => w == 2)
          (create_message ⟨"c1", "hi", "web", "inbound"⟩ 1) [1, 2, 3]).1 ∧
      ((broadcast (fun w => w == 2)
          (create_message ⟨"c1", "hi", "web", "inbound"⟩ 1) [1, 2, 3]).2.filter
        (fun d => d.1 == ws)) = [] ∧
      (∀ (fails2 : Nat → Bool) (msg2 : Message),
        ((broadcast fails2 msg2 (broadcast (fun w => w == 2)
            (create_message ⟨"c1", "hi", "web", "inbound"⟩ 1) [1, 2, 3]).1).2.filter
          (fun d => d.1 == ws)) = [])) ∧
    (∀ ws ∈ [1, 2, 3], (fun w => w == 2) ws = false →
      ws ∈ (broadcast (fun w => w == 2)
        (create_message ⟨"c1", "hi", "web", "inbound"⟩ 1) [1, 2, 3]).1) ∧
    (∀ ws ∈ (broadcast (fun w => w == 2)
        (create_message ⟨"c1", "hi", "web", "inbound"⟩ 1) [1, 2, 3]).1, ws ∈ [1, 2, 3]) :=
  broadcast_deliveries (fun w => w == 2)
    (create_message ⟨"c1", "hi", "web", "inbound"⟩ 1) [1, 2, 3] (by decide)

/-- One character of a regular-expression pattern against one text character:
an unescaped `.` matches any character other than a newline, every other
character in the metacharacter-free fragment matches itself.  Models the PCRE
fragment MongoDB `$regex` applies for patterns whose only metacharacter is the
dot (the fragment the repository's filters live in). -/
def charMatch (p c : Char) : Bool :=
  if p = '.' then decide (c ≠ '\n') else p == c

/-- Does the pattern match a prefix of the text, character by character? -/
def matchHere : List Char → List Char → Bool
  | [], _ => true
  | _ :: _, [] => false
  | p :: ps, c :: cs => charMatch p c && matchHere ps cs

/-- Unanchored regular-expression search: does the pattern match at some
position of the text?  This is the acceptance test of MongoDB
`{"$regex": pat}` for the dot-plus-literals fragment. -/
def regexFind : List Char → List Char → Bool
  | ps, [] => matchHere ps []
  | ps, c :: cs => matchHere ps (c :: cs) || regexFind ps cs

/-- Case-insensitive `$regex` match (`"$options": "i"`, main.py line 331),
modelled by lowering both pattern and text — equivalent for ASCII case
folding. -/
def regexSearchI (pat text : String) : Bool :=
  regexFind (lowerS pat).data (lowerS text).data

/-- The regular-expression metacharacters of the PCRE syntax MongoDB `$regex`
uses.  A pattern avoiding all of them is matched purely literally. -/
def META : List Char :=
  ['\\', '^', '$', '.', '|', '?', '*', '+', '(', ')', '[', ']', '\x7b', '\x7d']

/-- On a dot-free pattern, anchored regular-expression matching is literal
prefix matching. -/
lemma matchHere_literal :
    ∀ (ps ts : List Char), (∀ c ∈ ps, c ≠ '.') → matchHere ps ts = prefixMatch ps ts := by
  intro ps
  induction ps with
  | nil => intro ts _; cases ts <;> rfl
  | cons p ps ih =>
    intro ts h
    cases ts with
    | nil => rfl
    | cons c cs =>
      have hp : p ≠ '.' := h p (List.mem_cons_self p ps)
      simp only [matchHere, prefixMatch, charMatch, if_neg hp]
      rw [ih cs (fun x hx => h x (List.mem_cons_of_mem p hx))]

/-- On a dot-free pattern, unanchored regular-expression search is substring
containment. -/
lemma regexFind_literal :
    ∀ (ts ps : List Char), (∀ c ∈ ps, c ≠ '.') → regexFind ps ts = containsSub ps ts := by
  intro ts
  induction ts with
  | nil =>
    intro ps _
    cases ps <;> rfl
  | cons c cs ih =>
    intro ps h
    simp only [regexFind, containsSub, matchHere_literal ps (c :: cs) h, ih ps h]

/-- The `$match` stage of the conversations pipeline (main.py lines 328-333):
when a query string is present, keep the messages whose text matches it as a
case-insensitive regular expression. -/
def matchStage (q : Option String) (ms : List Message) : List Message :=
  match q with
  | none => ms
  | some pat => ms.filter (fun m => regexSearchI pat m.text)

/-- One output row of the `$group` stage (main.py lines 335-341). -/
structure Row where
  gid : String
  last_message : String
  last_time : Nat
  max_urgency : Nat
  topics : List (Option String)
deriving DecidableEq

/-- The group accumulators for one customer key (main.py lines 335-341):
`$last` takes the value of the group's last message in pipeline order,
`$max` the greatest urgency_score, `$addToSet` the set of distinct topic
values.  `gid` is the grouping key `$customer_id`. -/
def mkRow (c : String) (ms : List Message) : Row :=
  let g := ms.filter (fun m => m.customer_id == c)
  { gid := c
    last_message := match g.getLast? with | some m => m.text | none => ""
    last_time := match g.getLast? with | some m => m.order | none => 0
    max_urgency := (g.map (fun m => m.urgency_score)).foldl Nat.max 0
    topics := (g.map (fun m => m.topic)).dedup }

/-- The `$group` stage: one row per distinct customer_id of the surviving
messages.  MongoDB leaves the group output order unspecified; first-appearance
order is one admissible order, and no theorem below depends on it. -/
def groupStage (ms : List Message) : List Row :=
  ((ms.map (fun m => m.customer_id)).dedup).map (fun c => mkRow c ms)

/-- The `$sort` key of main.py line 342: max_urgency for sort="-urgency",
last_time otherwise, both descending. -/
def sortKeyOf (srt : String) (r : Row) : Nat :=
  if srt = "-urgency" then r.max_urgency else r.last_time

/-- One conversation summary as serialized by the endpoint (main.py lines
347-355). -/
structure Summary where
  customer_id : String
  customer : Option Customer
  last_message : String
  max_urgency : Nat
  topics : List String
deriving DecidableEq

/-- The Python post-processing of one aggregation row (main.py lines 347-355):
join the customer record (a falsy — empty — key yields no join, mirroring
`if it.get("_id")`), and keep only truthy topic values (`[t for t in ... if t]`
drops both null and the empty string). -/
def outItem (customers : List Customer) (r : Row) : Summary :=
  { customer_id := r.gid
    customer := if r.gid = "" then none else customers.find? (fun c => c.id == r.gid)
    last_message := r.last_message
    max_urgency := r.max_urgency
    topics := (r.topics.filterMap id).filter (fun t => t ≠ "") }

/-- conversations of main.py lines 324-356, one admissible execution of the
pipeline.  MongoDB validates `$limit` before running the pipeline and rejects
any non-positive value with error 15958 "the limit must be positive", so a
limit ≤ 0 fails rather than returning anything; ties under the single-key
`$sort` are resolved here by a stable insertion sort over the group order
(MongoDB guarantees no particular tie order — `pipelineRel` below captures the
full set of admissible outputs). -/
def conversations (ms : List Message) (customers : List Customer)
    (q : Option String) (srt : String) (lim : Int) : Except String (List Summary) :=
  if lim ≤ 0 then .error "the limit must be positive"
  else
    let rows := groupStage (matchStage q ms)
    let sorted := rows.insertionSort (fun a b => sortKeyOf srt b ≤ sortKeyOf srt a)
    .ok ((sorted.take lim.toNat).map (outItem customers))

/-- C6 counterexample: with limit 0 the aggregation fails with MongoDB's
"the limit must be positive" error even on an empty collection — it does not
return an empty sequence. -/
theorem conversations_limit_zero_errors :
    conversations [] [] none "-urgency" 0 = .error "the limit must be positive" ∧
    conversations [] [] none "-urgency" 0 ≠ .ok [] := by
  constructor
  · rfl
  · intro h
    cases h

/-- C6 amended: for every message collection and limit ≤ 0 the aggregation
raises MongoDB's `$limit` validation error "the limit must be positive" rather
than returning an empty sequence; an empty input collection with a positive
limit yields an empty result sequence, not an error. -/
theorem conversations_limit_behaviour :
    (∀ (ms : List Message) (customers : List Customer) (q : Option String)
       (srt : String) (lim : Int), lim ≤ 0 →
        conversations ms customers q srt lim = .error "the limit must be positive") ∧
    (∀ (customers : List Customer) (q : Option String) (srt : String) (lim : Int),
      0 < lim → conversations [] customers q srt lim = .ok []) := by
  constructor
  · intro ms customers q srt lim hlim
    simp [conversations, hlim]
  · intro customers q srt lim hlim
    have hns : ¬ lim ≤ 0 := by omega
    have hm : matchStage q ([] : List Message) = [] := by
      cases q <;> rfl
    simp [conversations, hns, hm, groupStage]

/-- Witness for C6 amended, at limit -3 on a one-message collection and at
limit 5 on the empty collection. -/
theorem conversations_limit_behaviour_witness :
    conversations [create_message ⟨"c1", "hi", "web", "inbound"⟩ 1] [] none "-urgency" (-3) =
      .error "the limit must be positive" ∧
    conversations [] [] none "-urgency" 5 = .ok [] :=
  ⟨conversations_limit_behaviour.1 [create_message ⟨"c1", "hi", "web", "inbound"⟩ 1]
      [] none "-urgency" (-3) (by omega),
   conversations_limit_behaviour.2 [] none "-urgency" 5 (by omega)⟩

/-- C9 counterexample: the text filter is applied as a regular expression, not
as a substring test: the filter "." is not a substring of the text "ab"
(case-insensitively), yet the message survives the `$match` stage and is
grouped and summarized, so the aggregation output is non-empty. -/
theorem conversations_filter_regex_not_substring :
    substrI "." "ab" = false ∧
    conversations [create_message ⟨"c1", "ab", "web", "inbound"⟩ 1] [] (some ".")
        "-urgency" 10 ≠ .ok [] := by
  constructor
  · rfl
  · intro h
    rw [show conversations [create_message ⟨"c1", "ab", "web", "inbound"⟩ 1] [] (some ".")
        "-urgency" 10 =
        .ok [outItem [] (mkRow "c1" [create_message ⟨"c1", "ab", "web", "inbound"⟩ 1])]
      from rfl] at h
    cases h

/-- C9 amended: for every present text filter containing no regular-expression
metacharacter, the aggregation first discards exactly those messages whose text
does not contain the filter as a case-insensitive substring, and grouping and
summarization operate only on the surviving messages: running the filtered
pipeline equals running the unfiltered pipeline on the pre-filtered snapshot.
For filters with metacharacters the `$match` stage is a regular-expression
test instead. -/
theorem conversations_filter_literal_substring
    (ms : List Message) (customers : List Customer) (pat : String)
    (srt : String) (lim : Int)
    (hmeta : ∀ c ∈ (lowerS pat).data, c ∉ META) :
    conversations ms customers (some pat) srt lim =
      conversations (ms.filter (fun m => substrI pat m.text)) customers none srt lim := by
  have hdot : ∀ c ∈ (lowerS pat).data, c ≠ '.' :=
    fun c hc hcontra => hmeta c hc (by rw [hcontra]; decide)
  have hfilter : matchStage (some pat) ms = ms.filter (fun m => substrI pat m.text) := by
    simp only [matchStage]
    apply List.filter_congr
    intro m _
    simp only [regexSearchI, substrI, strIn]
    exact regexFind_literal (lowerS m.text).data (lowerS pat).data hdot
  simp only [conversations]
  rw [hfilter]
  simp only [matchStage]

/-- Witness for C9 amended: the metacharacter-free filter "LOAN" on a
two-message collection. -/
theorem conversations_filter_literal_substring_witness :
    conversations
        [create_message ⟨"c1", "my loan please", "web", "inbound"⟩ 1,
         create_message ⟨"c2", "hello", "web", "inbound"⟩ 2] [] (some "LOAN")
        "-urgency" 10 =
      conversations
        ([create_message ⟨"c1", "my loan please", "web", "inbound"⟩ 1,
          create_message ⟨"c2", "hello", "web", "inbound"⟩ 2].filter
          (fun m => substrI "LOAN" m.text)) [] none "-urgency" 10 :=
  conversations_filter_literal_substring
    [create_message ⟨"c1", "my loan please", "web", "inbound"⟩ 1,
     create_message ⟨"c2", "hello", "web", "inbound"⟩ 2] [] "LOAN" "-urgency" 10
    (by decide)

/-- A non-empty list has a last element, and it is a member. -/
lemma getLast_exists_mem {α : Type} :
    ∀ (l : List α), l ≠ [] → ∃ a, l.getLast? = some a ∧ a ∈ l
  | [], h => absurd rfl h
  | [x], _ => ⟨x, rfl, List.mem_cons_self x []⟩
  | x :: y :: t, _ => by
    rcases getLast_exists_mem (y :: t) (by simp) with ⟨a, ha, hmem⟩
    exact ⟨a, by rw [List.getLast?_cons_cons]; exact ha, List.mem_cons_of_mem x hmem⟩

/-- In a list whose `order` fields are strictly increasing, the last element
carries the greatest `order`. -/
lemma pairwise_le_getLast :
    ∀ (l : List Message), l.Pairwise (fun a b => a.order < b.order) →
      ∀ mL, l.getLast? = some mL → ∀ m ∈ l, m.order ≤ mL.order
  | [], _, _, h => by cases h
  | [x], _, mL, h => by
    have hx : x = mL := Option.some_inj.mp h
    intro m hm
    rw [List.mem_singleton] at hm
    rw [hm, hx]
  | x :: y :: t, hp, mL, h => by
    intro m hm
    have h2 : (y :: t).getLast? = some mL := by rwa [List.getLast?_cons_cons] at h
    have hpt : (y :: t).Pairwise (fun a b => a.order < b.order) :=
      (List.pairwise_cons.mp hp).2
    rcases List.mem_cons.mp hm with rfl | hm2
    · have hmemL : mL ∈ y :: t := by
        rcases getLast_exists_mem (y :: t) (by simp) with ⟨a, ha, hmema⟩
        rw [h2] at ha
        rw [Option.some_inj.mp ha]
        exact hmema
      exact Nat.le_of_lt ((List.pairwise_cons.mp hp).1 mL hmemL)
    · exact pairwise_le_getLast (y :: t) hpt mL h2 m hm2

/-- The starting value is below a left max-fold. -/
lemma le_foldl_max : ∀ (l : List Nat) (i : Nat), i ≤ l.foldl Nat.max i
  | [], i => Nat.le_refl i
  | x :: t, i => Nat.le_trans (Nat.le_max_left i x) (le_foldl_max t (Nat.max i x))

/-- Every member is below a left max-fold over the list. -/
lemma mem_le_foldl_max : ∀ (l : List Nat) (i a : Nat), a ∈ l → a ≤ l.foldl Nat.max i
  | [], _, a, h => absurd h (List.not_mem_nil a)
  | x :: t, i, a, h => by
    rcases List.mem_cons.mp h with rfl | h2
    · exact Nat.le_trans (Nat.le_max_right i a) (le_foldl_max t _)
    · exact mem_le_foldl_max t _ a h2

/-- A left max-fold returns its starting value or a member of the list. -/
lemma foldl_max_mem_or_init : ∀ (l : List Nat) (i : Nat),
    l.foldl Nat.max i = i ∨ l.foldl Nat.max i ∈ l
  | [], _ => Or.inl rfl
  | x :: t, i => by
    rw [List.foldl_cons]
    rcases foldl_max_mem_or_init t (Nat.max i x) with h | h
    · rw [h]
      by_cases hix : i ≤ x
      · have hx : Nat.max i x = x :=
          Nat.le_antisymm (Nat.max_le.mpr ⟨hix, Nat.le_refl x⟩) (Nat.le_max_right i x)
        rw [hx]
        exact Or.inr (List.mem_cons_self x t)
      · have hi : Nat.max i x = i :=
          Nat.le_antisymm (Nat.max_le.mpr ⟨Nat.le_refl i, Nat.le_of_not_le hix⟩)
            (Nat.le_max_left i x)
        rw [hi]
        exact Or.inl rfl
    · exact Or.inr (List.mem_cons_of_mem x h)

/-- The `$match` stage only discards messages. -/
lemma matchStage_sublist (q : Option String) (ms : List Message) :
    (matchStage q ms).Sublist ms := by
  cases q with
  | none => exact List.Sublist.refl ms
  | some pat => exact List.filter_sublist ms

/-- C5: for every stored collection whose storage-assigned `order` sequence is
strictly increasing along the scan order, and which satisfies the stored-record
invariant that non-inbound messages carry urgency 0, every per-customer summary
produced by the conversations aggregation takes its last_message from a
greatest-`order` member of that customer's group of surviving messages, and its
max_urgency is the maximum urgency_score across the group — in particular 0
when the group has no inbound message. -/
theorem conversations_last_and_max
    (ms : List Message) (customers : List Customer) (q : Option String)
    (srt : String) (lim : Int) (out : List Summary) (s : Summary)
    (hord : ms.Pairwise (fun a b => a.order < b.order))
    (hinv : ∀ m ∈ ms, m.direction ≠ "inbound" → m.urgency_score = 0)
    (hrun : conversations ms customers q srt lim = .ok out)
    (hs : s ∈ out) :
    ∃ g, g = (matchStage q ms).filter (fun m => m.customer_id == s.customer_id) ∧
      (∃ m, m ∈ g ∧ s.last_message = m.text ∧ ∀ m2 ∈ g, m2.order ≤ m.order) ∧
      (∀ m ∈ g, m.urgency_score ≤ s.max_urgency) ∧
      (∃ m, m ∈ g ∧ s.max_urgency = m.urgency_score) ∧
      ((∀ m ∈ g, m.direction ≠ "inbound") → s.max_urgency = 0) := by
  by_cases hlim : lim ≤ 0
  · rw [conversations, if_pos hlim] at hrun
    cases hrun
  · rw [conversations, if_neg hlim] at hrun
    simp only [] at hrun
    injection hrun with hout
    subst hout
    rcases List.mem_map.mp hs with ⟨r, hrtake, rfl⟩
    have hrs : r ∈ (groupStage (matchStage q ms)).insertionSort
        (fun a b => sortKeyOf srt b ≤ sortKeyOf srt a) :=
      (List.take_sublist _ _).subset hrtake
    have hrrows : r ∈ groupStage (matchStage q ms) :=
      (List.perm_insertionSort _ _).subset hrs
    rcases List.mem_map.mp hrrows with ⟨c, hc, rfl⟩
    have hcid : (outItem customers (mkRow c (matchStage q ms))).customer_id = c := rfl
    rw [hcid]
    have hlasteq : (outItem customers (mkRow c (matchStage q ms))).last_message =
        (match ((matchStage q ms).filter (fun m => m.customer_id == c)).getLast? with
         | some m => m.text
         | none => "") := rfl
    have hmaxeq : (outItem customers (mkRow c (matchStage q ms))).max_urgency =
        (((matchStage q ms).filter (fun m => m.customer_id == c)).map
          (fun m => m.urgency_score)).foldl Nat.max 0 := rfl
    have hcmem := List.mem_map.mp (List.mem_dedup.mp hc)
    rcases hcmem with ⟨m0, hm0, hm0c⟩
    have hm0G : m0 ∈ (matchStage q ms).filter (fun m => m.customer_id == c) :=
      List.mem_filter.mpr ⟨hm0, by simp [hm0c]⟩
    have hGne : (matchStage q ms).filter (fun m => m.customer_id == c) ≠ [] :=
      fun hG => (List.not_mem_nil m0) (hG ▸ hm0G)
    have hGsub : ∀ m ∈ (matchStage q ms).filter (fun m => m.customer_id == c), m ∈ ms :=
      fun m hm => (matchStage_sublist q ms).subset (List.mem_of_mem_filter hm)
    have hpG : ((matchStage q ms).filter (fun m => m.customer_id == c)).Pairwise
        (fun a b => a.order < b.order) :=
      List.Pairwise.sublist
        ((List.filter_sublist _).trans (matchStage_sublist q ms)) hord
    refine ⟨(matchStage q ms).filter (fun m => m.customer_id == c), rfl, ?_, ?_, ?_, ?_⟩
    · rcases getLast_exists_mem _ hGne with ⟨mL, hLast, hLmem⟩
      refine ⟨mL, hLmem, ?_, ?_⟩
      · rw [hlasteq, hLast]
      · exact pairwise_le_getLast _ hpG mL hLast
    · intro m hm
      rw [hmaxeq]
      exact mem_le_foldl_max _ 0 m.urgency_score (List.mem_map_of_mem _ hm)
    · rcases foldl_max_mem_or_init
          (((matchStage q ms).filter (fun m => m.customer_id == c)).map
            (fun m => m.urgency_score)) 0 with h0 | hmem
      · refine ⟨m0, hm0G, ?_⟩
        rw [hmaxeq, h0]
        have hle := mem_le_foldl_max
          (((matchStage q ms).filter (fun m => m.customer_id == c)).map
            (fun m => m.urgency_score)) 0 m0.urgency_score (List.mem_map_of_mem _ hm0G)
        rw [h0] at hle
        omega
      · rcases List.mem_map.mp hmem with ⟨m, hm, hmeq⟩
        exact ⟨m, hm, by rw [hmaxeq, hmeq]⟩
    · intro hallout
      have hzero : ∀ m ∈ (matchStage q ms).filter (fun m => m.customer_id == c),
          m.urgency_score = 0 :=
        fun m hm => hinv m (hGsub m hm) (hallout m hm)
      rw [hmaxeq]
      rcases foldl_max_mem_or_init
          (((matchStage q ms).filter (fun m => m.customer_id == c)).map
            (fun m => m.urgency_score)) 0 with h0 | hmem
      · exact h0
      · rcases List.mem_map.mp hmem with ⟨m, hm, hmeq⟩
        rw [← hmeq]
        exact hzero m hm

/-- Witness snapshot for C5: an inbound then an outbound message of one
customer. -/
def wMsgA : Message := create_message ⟨"c7", "when loan", "web", "inbound"⟩ 1

/-- Second witness message: outbound, stored with urgency 0. -/
def wMsgB : Message := create_message ⟨"c7", "ok", "web", "outbound"⟩ 2

/-- The summary the aggregation produces for the C5 witness snapshot. -/
def wSummary : Summary :=
  { customer_id := "c7", customer := none, last_message := "ok",
    max_urgency := 50, topics := ["loan"] }

/-- Witness for C5: on the two-message snapshot, the produced summary takes
last_message "ok" from the greatest-order message and max_urgency 50 from the
inbound message. -/
theorem conversations_last_and_max_witness :
    ∃ g, g = (matchStage none [wMsgA, wMsgB]).filter
        (fun m => m.customer_id == wSummary.customer_id) ∧
      (∃ m, m ∈ g ∧ wSummary.last_message = m.text ∧ ∀ m2 ∈ g, m2.order ≤ m.order) ∧
      (∀ m ∈ g, m.urgency_score ≤ wSummary.max_urgency) ∧
      (∃ m, m ∈ g ∧ wSummary.max_urgency = m.urgency_score) ∧
      ((∀ m ∈ g, m.direction ≠ "inbound") → wSummary.max_urgency = 0) :=
  conversations_last_and_max [wMsgA, wMsgB] [] none "-urgency" 5 [wSummary] wSummary
    (by decide) (by decide) rfl (List.mem_singleton_self wSummary)

/-- The descending-key order the `$sort` stage establishes (main.py line 342). -/
def rowGe (srt : String) (a b : Row) : Prop := sortKeyOf srt b ≤ sortKeyOf srt a

instance (srt : String) : DecidableRel (rowGe srt) :=
  fun a b => inferInstanceAs (Decidable (sortKeyOf srt b ≤ sortKeyOf srt a))

/-- The set of outputs one run of the conversations pipeline may produce on a
given snapshot.  MongoDB guarantees only that `$sort` emits some permutation of
the `$group` rows that is weakly descending in the single sort key — the order
of rows with equal keys is explicitly unspecified and may differ between two
executions over identical data — after which `$limit` truncates and the Python
loop maps each row to its summary.  (The limit must be positive or the pipeline
errors instead, per C6.) -/
def pipelineRel (ms : List Message) (customers : List Customer) (q : Option String)
    (srt : String) (lim : Int) (out : List Summary) : Prop :=
  0 < lim ∧ ∃ p : List Row,
    List.Perm p (groupStage (matchStage q ms)) ∧
    List.Sorted (rowGe srt) p ∧
    out = (p.take lim.toNat).map (outItem customers)

/-- Tied snapshot for C7: two customers, both with max urgency 30. -/
def tMsgA : Message := create_message ⟨"A", "loan", "web", "inbound"⟩ 1

/-- Second customer's message of the tied snapshot, also urgency 30. -/
def tMsgB : Message := create_message ⟨"B", "payment", "web", "inbound"⟩ 2

/-- First admissible output order of the tied snapshot. -/
def tOut1 : List Summary :=
  [outItem [] (mkRow "A" [tMsgA, tMsgB]), outItem [] (mkRow "B" [tMsgA, tMsgB])]

/-- Second admissible output order of the tied snapshot. -/
def tOut2 : List Summary :=
  [outItem [] (mkRow "B" [tMsgA, tMsgB]), outItem [] (mkRow "A" [tMsgA, tMsgB])]

/-- The tied snapshot admits the first output order. -/
lemma pipelineRel_tied_first :
    pipelineRel [tMsgA, tMsgB] [] none "-urgency" 10 tOut1 := by
  refine ⟨by decide, [mkRow "A" [tMsgA, tMsgB], mkRow "B" [tMsgA, tMsgB]], ?_, ?_, rfl⟩
  · exact List.Perm.refl _
  · constructor
    · intro b hb
      rw [List.mem_singleton] at hb
      rw [hb]
      decide
    · exact List.sorted_singleton _

/-- The tied snapshot admits the second output order as well. -/
lemma pipelineRel_tied_second :
    pipelineRel [tMsgA, tMsgB] [] none "-urgency" 10 tOut2 := by
  refine ⟨by decide, [mkRow "B" [tMsgA, tMsgB], mkRow "A" [tMsgA, tMsgB]], ?_, ?_, rfl⟩
  · exact List.Perm.swap (mkRow "A" [tMsgA, tMsgB]) (mkRow "B" [tMsgA, tMsgB]) []
  · constructor
    · intro b hb
      rw [List.mem_singleton] at hb
      rw [hb]
      decide
    · exact List.sorted_singleton _

/-- C7 counterexample: on a snapshot with two customers tied at max_urgency 30,
two runs of the aggregation over the same immutable snapshot, with the same
(absent) filter, the same sort key and the same limit, may legitimately produce
two different output sequences — the single-key `$sort` fixes no tie order, so
output identity across runs is not guaranteed and ties are not broken by
customer_id or any other deterministic rule. -/
theorem pipeline_ties_not_deterministic :
    pipelineRel [tMsgA, tMsgB] [] none "-urgency" 10 tOut1 ∧
    pipelineRel [tMsgA, tMsgB] [] none "-urgency" 10 tOut2 ∧
    tOut1 ≠ tOut2 :=
  ⟨pipelineRel_tied_first, pipelineRel_tied_second, by decide⟩

instance : IsAntisymm Nat (fun x y => y ≤ x) :=
  ⟨fun a b h1 h2 => Nat.le_antisymm h2 h1⟩

/-- C7 amended: two runs over the same immutable snapshot with the same filter,
sort key and limit produce output sequences of equal length that are
limit-truncations of key-descending orderings of the same group-summary
collection; when sorting by max_urgency, the sequence of max_urgency values is
identical across runs — but the identity and order of summaries with tied sort
keys is not guaranteed deterministic between runs (MongoDB specifies no tie
order), so the exact sequences may differ at ties. -/
theorem pipeline_key_sequence_deterministic
    (ms : List Message) (customers : List Customer) (q : Option String)
    (srt : String) (lim : Int) (o1 o2 : List Summary)
    (h1 : pipelineRel ms customers q srt lim o1)
    (h2 : pipelineRel ms customers q srt lim o2) :
    o1.length = o2.length ∧
    (srt = "-urgency" →
      o1.map (fun s => s.max_urgency) = o2.map (fun s => s.max_urgency)) := by
  obtain ⟨-, p1, hp1, hs1, rfl⟩ := h1
  obtain ⟨-, p2, hp2, hs2, rfl⟩ := h2
  have hpp : List.Perm p1 p2 := hp1.trans hp2.symm
  constructor
  · simp [List.length_take, hpp.length_eq]
  · intro hsrt
    subst hsrt
    have hmono : ∀ a b : Row, rowGe "-urgency" a b →
        (fun x y : Nat => y ≤ x) a.max_urgency b.max_urgency := by
      intro a b hab
      simpa [rowGe, sortKeyOf] using hab
    have hs1' : List.Sorted (fun x y : Nat => y ≤ x) (p1.map (fun r => r.max_urgency)) :=
      List.Pairwise.map _ hmono hs1
    have hs2' : List.Sorted (fun x y : Nat => y ≤ x) (p2.map (fun r => r.max_urgency)) :=
      List.Pairwise.map _ hmono hs2
    have hkey : p1.map (fun r => r.max_urgency) = p2.map (fun r => r.max_urgency) :=
      @List.eq_of_perm_of_sorted Nat (fun x y => y ≤ x) _ _ _ (hpp.map _) hs1' hs2'
    have hfun : ((fun s : Summary => s.max_urgency) ∘ outItem customers) =
        (fun r : Row => r.max_urgency) := rfl
    have hcomm1 : ((p1.take lim.toNat).map (outItem customers)).map
        (fun s => s.max_urgency) = (p1.map (fun r => r.max_urgency)).take lim.toNat := by
      rw [List.map_map, hfun, List.map_take]
    have hcomm2 : ((p2.take lim.toNat).map (outItem customers)).map
        (fun s => s.max_urgency) = (p2.map (fun r => r.max_urgency)).take lim.toNat := by
      rw [List.map_map, hfun, List.map_take]
    rw [hcomm1, hcomm2, hkey]

/-- Witness for C7 amended, at the tied snapshot and its two admissible
outputs: equal lengths and identical max_urgency sequences. -/
theorem pipeline_key_sequence_deterministic_witness :
    tOut1.length = tOut2.length ∧
    ("-urgency" = "-urgency" →
      tOut1.map (fun s => s.max_urgency) = tOut2.map (fun s => s.max_urgency)) :=
  pipeline_key_sequence_deterministic [tMsgA, tMsgB] [] none "-urgency" 10 tOut1 tOut2
    pipelineRel_tied_first pipelineRel_tied_second

end Backend
